import Mathlib

/-!
# Verification of the `go-from-python` teaching scripts

A shallow embedding, in Lean 4, of the behaviourally relevant parts of the
Go teaching scripts:

* `go_3_goroutines.go` — a producer/consumer pipeline: spammer goroutines
  feed a bounded channel of stock symbols, four `stockEmojiWorker`
  goroutines tally matching symbols up to a cap and signal a done channel,
  while the driver loop in `main` waits on either a timeout ticker or four
  done messages.  Channels are modelled as the finite sequence of values a
  goroutine reads or writes; the scheduler's nondeterminism is modelled by
  quantifying over those sequences.
* `go_4_structs_interfaces.go` and its near-duplicate revision — value
  receiver (`SenderA.Send`) versus pointer receiver (`SenderB.Send`).
  A method call is modelled as a function from the receiver to the pair
  (receiver after the call as the *caller* sees it, printed output).
  Go's `int` is fixed-width: the mutated counter of `SenderB` is modelled
  as an `Int` reduced by `int64Wrap` at each arithmetic step, so the
  64-bit two's-complement wrap-around is faithful.
* the deferred-cleanup script — `sql.Open` / `db.Conn` failure paths that
  `log.Fatal` out of `main`.
* the collections script — Go map lookup with the `value, ok := m[key]`
  idiom, modelled on association lists with unique keys.
-/

set_option autoImplicit false

namespace GoFromPython

/-! ## `go_3_goroutines.go`: the stock-emoji pipeline -/

/-- The fixed slice of stock symbols in `stockSymbolSpammer`
(`go_3_goroutines.go:233`). -/
def stockSymbols : List String := ["AAPL", "GOOG", "FB", "AMZN"]

/-- The tickers assigned to the four workers started in `main`
(`go_3_goroutines.go:179-182`), in launch order. -/
def workerTickers : List String := ["AAPL", "GOOG", "FB", "AMZN"]

/-- The cap passed to every worker in `main` (`go_3_goroutines.go:178`). -/
def maxEmojisMain : Nat := 100000

/-- The worker count in `main` (`go_3_goroutines.go:167`). -/
def workersMain : Nat := 4

/-- One iteration sequence of `stockSymbolSpammer` (`go_3_goroutines.go:232-242`):
each loop turn draws `rand.Intn(len(stockSymbols))` — a number in `[0, 4)`,
modelled as `Fin 4` — indexes `stockSymbols` with it, and sends the symbol
on the stock channel.  `rolls` is the sequence of random draws; the result
is the sequence of values sent. -/
def stockSymbolSpammer (rolls : List (Fin 4)) : List String :=
  rolls.map (fun r => stockSymbols.get (Fin.cast (by rfl) r))

/-- The counting loop of `stockEmojiWorker` (`go_3_goroutines.go:249-259`):
`for stockSymbol := range stockChan` over the finite sequence of symbols the
worker reads; on a symbol equal to `ticker` the count is incremented (and an
icon printed); after each received symbol the loop breaks as soon as
`emojiCount > maxEmojis`. -/
def stockEmojiWorkerCount (ticker : String) (maxEmojis : Nat) :
    List String → Nat → Nat
  | [], emojiCount => emojiCount
  | stockSymbol :: rest, emojiCount =>
    let emojiCount := if stockSymbol == ticker then emojiCount + 1 else emojiCount
    if emojiCount > maxEmojis then emojiCount
    else stockEmojiWorkerCount ticker maxEmojis rest emojiCount

/-- `stockEmojiWorker` (`go_3_goroutines.go:245-262`): runs the counting
loop starting from `emojiCount = 0` over the symbols it reads, then performs
`doneChan <- true`.  The result is the final tally paired with the list of
values sent on the done channel. -/
def stockEmojiWorker (ticker : String) (maxEmojis : Nat)
    (symsRead : List String) : Nat × List Bool :=
  (stockEmojiWorkerCount ticker maxEmojis symsRead 0, [true])

/-- An event the driver loop's `select` can service
(`go_3_goroutines.go:210-223`): a message on the ticker channel or a
message on the worker done channel. -/
inductive DriverEvent where
  | tick
  | workerDone
deriving DecidableEq, Repr

/-- How the driver loop in `main` ends (or has not yet ended). -/
inductive DriverOutcome where
  | timedOut
  | allWorkersDone
  | stillWaiting
deriving DecidableEq, Repr

/-- The driver loop of `main` (`go_3_goroutines.go:202-224`) over the finite
sequence of channel events its `select` services, carrying
`finishedWorkers`: a ticker message returns at once ("got a timeout
message"); a done message increments `finishedWorkers` and returns once it
equals `workers` ("heard from all the workers"); with no event pending the
loop keeps waiting. -/
def driverLoop (workers : Nat) : List DriverEvent → Nat → DriverOutcome
  | [], _ => .stillWaiting
  | .tick :: _, _ => .timedOut
  | .workerDone :: rest, finishedWorkers =>
    if finishedWorkers + 1 == workers then .allWorkersDone
    else driverLoop workers rest (finishedWorkers + 1)

/-- The drop notice printed by the non-blocking send loop
(`go_3_goroutines.go:137`). -/
def dropNotice (message : String) : String :=
  "messageChan full, dropping message: " ++ message

/-- The buffer size of `messageChan` (`go_3_goroutines.go:109`). -/
def messageChanCap : Nat := 3

/-- The messages sent by the loop at `go_3_goroutines.go:130`. -/
def mainMessages : List String :=
  ["foo", "bar", "bazz", "wham", "whack", "bang", "pop", "zow"]

/-- One `select { case messageChan <- message: ... default: ... }` step
(`go_3_goroutines.go:131-138`), on a bounded channel modelled as the list
of its buffered contents (front = oldest): if the channel has free space the
message is enqueued, otherwise the `default` branch runs and the message is
dropped with a printed notice.  Returns the channel after the step and the
notice, if any, that was printed. -/
def trySend (cap : Nat) (ch : List String) (message : String) :
    List String × Option String :=
  if ch.length < cap then (ch ++ [message], none)
  else (ch, some (dropNotice message))

/-- The per-message record of one iteration of the sending loop: the
message, the channel contents at the moment of the send attempt, the channel
contents immediately after, and the drop notice if one was printed. -/
structure SendRecord where
  msg : String
  pre : List String
  post : List String
  note : Option String
deriving DecidableEq, Repr

/-- The sending loop (`go_3_goroutines.go:130-139`) with the concurrent
consumer goroutine abstracted as an oracle: each list element pairs a
message with the number of buffered values the consumer dequeued (from the
front) before that send attempt.  Produces the per-message records. -/
def sendRecords (cap : Nat) : List (String × Nat) → List String → List SendRecord
  | [], _ => []
  | (message, consumed) :: rest, ch =>
    let pre := ch.drop consumed
    let step := trySend cap pre message
    ⟨message, pre, step.1, step.2⟩ :: sendRecords cap rest step.1

/-! ## `go_4_structs_interfaces.go` and its near-duplicate revision

Two revisions of the same lesson exist: the named file
`go_4_structs_interfaces.go` and the unnamed revision appended to the
collections script.  Both declare `SenderA` (value receiver) and `SenderB`
(pointer receiver) with `FirstName`/`MessageCount` fields; their `Send`
methods differ between the revisions only in `SenderA.Send`'s body.

A method body is modelled as `receiver → message → receiver' × output`,
where `receiver'` is the receiver as the *method body* leaves it.
Go's call semantics are modelled on top: a value-receiver call hands the
method a copy, so the caller's struct afterwards is the original; a
pointer-receiver call hands it the original, so the caller's struct
afterwards is `receiver'`. -/

/-- The `SenderA` struct (value-receiver lesson), identical in both
revisions. -/
structure SenderA where
  FirstName : String
  MessageCount : Int
deriving DecidableEq, Repr

/-- `SenderA.Send` as in `go_4_structs_interfaces.go:24-27`: increments the
(copied) `MessageCount` and prints `"Send %d from %s: %s\n"` with the
incremented count. -/
def SenderA.Send (s : SenderA) (message : String) : SenderA × String :=
  let s := { s with MessageCount := s.MessageCount + 1 }
  (s, "Send " ++ toString s.MessageCount ++ " from " ++ s.FirstName
        ++ ": " ++ message ++ "\n")

/-- `SenderA.Send` as in the unnamed revision (part_000 lines 476-492):
increments the (copied) `MessageCount`, prints `"Send from %s: %s\n"`
— without the count — and then assigns `s.FirstName` on the copy. -/
def SenderA.SendAlt (s : SenderA) (message : String) : SenderA × String :=
  let s1 := { s with MessageCount := s.MessageCount + 1 }
  let out := "Send from " ++ s1.FirstName ++ ": " ++ message ++ "\n"
  ({ s1 with FirstName := "what will happen????" }, out)

/-- Calling `senderA.Send(msg)`: `Send` is a value receiver, so the method
runs on a copy and the caller's struct is unchanged; only the printed
output escapes. -/
def SenderA.callSend (s : SenderA) (message : String) : SenderA × String :=
  (s, (SenderA.Send s message).2)

/-- Calling the unnamed revision's `senderA.Send(msg)` (value receiver). -/
def SenderA.callSendAlt (s : SenderA) (message : String) : SenderA × String :=
  (s, (SenderA.SendAlt s message).2)

/-- A sequence of `senderA.Send(...)` calls (`runSenders`,
`go_4_structs_interfaces.go:67-69`): the caller's struct threaded through
the calls. -/
def SenderA.sendMany (s : SenderA) (messages : List String) : SenderA :=
  messages.foldl (fun st m => (SenderA.callSend st m).1) s

/-- Reduction of an integer to Go's `int` — a fixed-width 64-bit
two's-complement integer on the platforms these scripts target — as the
unique representative in `[-2^63, 2^63)` congruent mod `2^64`.  Go's `++`
on an `int` at `2^63 - 1` wraps to `-2^63`. -/
def int64Wrap (x : Int) : Int := (x + 2 ^ 63) % 2 ^ 64 - 2 ^ 63

/-- The `SenderB` struct (pointer-receiver lesson), identical in both
revisions.  `MessageCount` is a Go `int`: the field carries the
mathematical integer and every arithmetic step in the methods below goes
through `int64Wrap`, so reachable values stay in the 64-bit range. -/
structure SenderB where
  FirstName : String
  MessageCount : Int
deriving DecidableEq, Repr

/-- `SenderB.Send` as in `go_4_structs_interfaces.go:45-50`: increments
`MessageCount` through the pointer — a 64-bit `int` increment, which wraps
at `2^63 - 1` — and prints `"Send %d from %s: %s\n"` with the incremented
count. -/
def SenderB.Send (s : SenderB) (message : String) : SenderB × String :=
  let s := { s with MessageCount := int64Wrap (s.MessageCount + 1) }
  (s, "Send " ++ toString s.MessageCount ++ " from " ++ s.FirstName
        ++ ": " ++ message ++ "\n")

/-- `SenderB.Send` as in the unnamed revision (part_000 lines 508-515);
textually the same body as the named file's. -/
def SenderB.SendAlt (s : SenderB) (message : String) : SenderB × String :=
  let s := { s with MessageCount := int64Wrap (s.MessageCount + 1) }
  (s, "Send " ++ toString s.MessageCount ++ " from " ++ s.FirstName
        ++ ": " ++ message ++ "\n")

/-- Calling `senderB.Send(msg)`: `Send` is a pointer receiver, so the
caller's struct afterwards is the struct as the method body left it. -/
def SenderB.callSend (s : SenderB) (message : String) : SenderB × String :=
  SenderB.Send s message

/-- A sequence of `senderB.Send(...)` calls (`runSenders`,
`go_4_structs_interfaces.go:71-73`). -/
def SenderB.sendMany (s : SenderB) (messages : List String) : SenderB :=
  messages.foldl (fun st m => (SenderB.callSend st m).1) s

/-! ## The deferred-cleanup script (unnamed, part_001) -/

/-- How the `main` of the deferred-cleanup script ends: `log.Fatal` (which
terminates the process at once, running no deferred functions and no
further code) with the logged message, or normal completion. -/
inductive DbMainOutcome where
  | fatalExit (logMsg : String)
  | completed
deriving DecidableEq, Repr

/-- What a run of the deferred-cleanup `main` did: how it ended, every
operation invoked on the database connection `conn`, and whether the code
after the connection setup (the functions/receivers walkthrough,
part_001 lines 103-143) ran. -/
structure DbMainRun where
  outcome : DbMainOutcome
  connOps : List String
  afterSetupRan : Bool
deriving DecidableEq, Repr

/-- The connection-setup portion of the deferred-cleanup `main`
(part_001 lines 37-48) and its sequel, over the outcomes of its two
fallible steps: `sql.Open` (parsing the connection string) and `db.Conn`
(obtaining a connection).  On either error `log.Fatal` terminates the
process with the corresponding message; otherwise `conn.Close()` is
deferred (the sole operation ever invoked on `conn`) and the rest of
`main` runs. -/
def deferredMain (openErr connErr : Bool) : DbMainRun :=
  if openErr then
    { outcome := .fatalExit
        "Killing program, check the host/port/user string for syntax errors.",
      connOps := [], afterSetupRan := false }
  else if connErr then
    { outcome := .fatalExit "Killing program, couldn't reach the db for a connection.",
      connOps := [], afterSetupRan := false }
  else
    { outcome := .completed, connOps := ["Close"], afterSetupRan := true }

/-! ## The collections script (unnamed, part_000): Go map lookup -/

/-- Go map read with the `value, keyExists := m[key]` idiom
(part_000 lines 365 and 387), on a map with `int` values modelled as an
association list with unique keys: a present key yields its stored value
and `true`; an absent key yields `int`'s zero value `0` and `false`. -/
def goMapLookup (m : List (String × Int)) (key : String) : Int × Bool :=
  match m.find? (fun kv => kv.1 == key) with
  | some kv => (kv.2, true)
  | none => (0, false)

/-- A map read as a state operation: the `value, keyExists` pair together
with the map as it stands after the read. -/
def goMapRead (m : List (String × Int)) (key : String) :
    (Int × Bool) × List (String × Int) :=
  (goMapLookup m key, m)

/-- The `nameToAge` map of the collections script (part_000 lines 359-362). -/
def nameToAge : List (String × Int) := [("Bob", 42), ("Alice", 33)]

/-! ## The deferred-cleanup script: value vs pointer receivers -/

/-- The `user` struct (part_001 lines 159-161). -/
structure user where
  firstName : String
deriving DecidableEq, Repr

/-- `user.updateNameAndCopy` (part_001 lines 163-166): a value receiver
that sets `firstName` on its copy and returns the copy. -/
def user.updateNameAndCopy (u : user) (newName : String) : user :=
  { u with firstName := newName }

/-- Calling `u.updateNameAndCopy(n)`: value receiver, so the caller's `u`
is unchanged; the pair is (caller's `u` after the call, returned copy). -/
def user.callUpdateNameAndCopy (u : user) (newName : String) : user × user :=
  (u, u.updateNameAndCopy newName)

/-- The `person` struct (part_001 lines 177-179). -/
structure person where
  firstName : String
deriving DecidableEq, Repr

/-- `person.updateMyName` (part_001 lines 181-183): a pointer receiver that
sets `firstName` on the original. -/
def person.updateMyName (p : person) (newName : String) : person :=
  { p with firstName := newName }

/-- Calling `p.updateMyName(n)`: pointer receiver, so the caller's `p`
afterwards is the struct as the method left it. -/
def person.callUpdateMyName (p : person) (newName : String) : person :=
  p.updateMyName newName

/-! ## Helper lemmas -/

/-- A sequence of value-receiver `Send` calls leaves the caller's
`SenderA` untouched. -/
lemma sendManyA_id : ∀ (messages : List String) (s : SenderA),
    SenderA.sendMany s messages = s
  | [], _ => rfl
  | _ :: rest, s => sendManyA_id rest s

/-- `int64Wrap` is the identity on the 64-bit `int` range. -/
lemma int64Wrap_eq_self (x : Int) (h1 : -(2 ^ 63) ≤ x) (h2 : x < 2 ^ 63) :
    int64Wrap x = x := by
  unfold int64Wrap
  omega

/-- `int64Wrap` always lands in the 64-bit `int` range. -/
lemma int64Wrap_bounds (x : Int) :
    -(2 ^ 63) ≤ int64Wrap x ∧ int64Wrap x < 2 ^ 63 := by
  unfold int64Wrap
  omega

/-- Wrapping the left summand first does not change a wrapped sum. -/
lemma int64Wrap_add_left (a b : Int) :
    int64Wrap (int64Wrap a + b) = int64Wrap (a + b) := by
  unfold int64Wrap
  omega

/-- Each pointer-receiver `Send` call adds one to `MessageCount` (as a
64-bit `int`) and the additions accumulate, mod the wrap, over a call
sequence starting in range. -/
lemma sendManyB_messageCount : ∀ (messages : List String) (s : SenderB),
    -(2 ^ 63) ≤ s.MessageCount → s.MessageCount < 2 ^ 63 →
    (SenderB.sendMany s messages).MessageCount
      = int64Wrap (s.MessageCount + messages.length) := by
  intro messages
  induction messages with
  | nil =>
    intro s h1 h2
    simp only [SenderB.sendMany, List.foldl_nil, List.length_nil,
      Nat.cast_zero, add_zero]
    exact (int64Wrap_eq_self _ h1 h2).symm
  | cons m rest ih =>
    intro s h1 h2
    have hb := int64Wrap_bounds (s.MessageCount + 1)
    have h := ih { s with MessageCount := int64Wrap (s.MessageCount + 1) }
      hb.1 hb.2
    simp only [SenderB.sendMany, List.foldl_cons] at h ⊢
    rw [show ((SenderB.callSend s m).1)
          = { s with MessageCount := int64Wrap (s.MessageCount + 1) }
        from rfl, h]
    rw [int64Wrap_add_left]
    congr 1
    simp only [List.length_cons]
    push_cast
    ring

/-- Pointer-receiver `Send` calls never touch `FirstName`. -/
lemma sendManyB_firstName : ∀ (messages : List String) (s : SenderB),
    (SenderB.sendMany s messages).FirstName = s.FirstName
  | [], _ => rfl
  | _ :: rest, s =>
      sendManyB_firstName rest
        { s with MessageCount := int64Wrap (s.MessageCount + 1) }

/-- Closed form of the worker counting loop: starting from a count that has
not yet passed the cap, the final tally is the number of matching symbols,
clipped at `maxEmojis + 1` (the loop breaks only once the count *exceeds*
the cap). -/
lemma stockEmojiWorkerCount_eq (ticker : String) (maxEmojis : Nat) :
    ∀ (syms : List String) (c : Nat), c ≤ maxEmojis →
      stockEmojiWorkerCount ticker maxEmojis syms c
        = min (c + syms.countP (fun s => s == ticker)) (maxEmojis + 1) := by
  intro syms
  induction syms with
  | nil =>
    intro c hc
    simp only [stockEmojiWorkerCount, List.countP_nil]
    omega
  | cons s rest ih =>
    intro c hc
    by_cases hs : (s == ticker) = true
    · by_cases hover : c + 1 > maxEmojis
      · have h1 : stockEmojiWorkerCount ticker maxEmojis (s :: rest) c
            = c + 1 := by
          simp [stockEmojiWorkerCount, hs, hover]
        rw [h1, List.countP_cons]
        simp only [hs, if_pos]
        omega
      · have h1 : stockEmojiWorkerCount ticker maxEmojis (s :: rest) c
            = stockEmojiWorkerCount ticker maxEmojis rest (c + 1) := by
          simp [stockEmojiWorkerCount, hs, hover]
        rw [h1, ih (c + 1) (by omega), List.countP_cons]
        simp only [hs, if_pos]
        omega
    · have hs' : (s == ticker) = false := by
        cases h : (s == ticker) <;> simp_all
      have hno : ¬ c > maxEmojis := by omega
      have h1 : stockEmojiWorkerCount ticker maxEmojis (s :: rest) c
          = stockEmojiWorkerCount ticker maxEmojis rest c := by
        simp [stockEmojiWorkerCount, hs', hno]
      rw [h1, ih c hc, List.countP_cons]
      simp [hs']

/-- The tally component of a worker run is the counting loop started at
zero. -/
lemma stockEmojiWorker_fst (ticker : String) (maxEmojis : Nat)
    (symsRead : List String) :
    (stockEmojiWorker ticker maxEmojis symsRead).1
      = stockEmojiWorkerCount ticker maxEmojis symsRead 0 := rfl

/-- Counting matches over a run of copies of the matching symbol. -/
lemma countP_replicate_self (n : Nat) (s : String) :
    (List.replicate n s).countP (fun x => x == s) = n := by
  induction n with
  | zero => rfl
  | succ n ih => simp [List.replicate_succ, List.countP_cons, ih]

/-! ## Claims about the pipeline -/

/-- Claim C1 counterexample: the pipeline starts its workers with the cap
`maxEmojisMain = 100000`; the "AAPL" worker, reading a sequence of 100001
"AAPL" symbols, ends with a tally of 100001 — the tally is *not* capped at
`maxEmojis`, refuting the claim as stated. -/
theorem stockEmojiWorker_tally_exceeds_cap :
    ¬ (stockEmojiWorker "AAPL" maxEmojisMain
         (List.replicate (maxEmojisMain + 1) "AAPL")).1 ≤ maxEmojisMain := by
  have h := stockEmojiWorkerCount_eq "AAPL" maxEmojisMain
    (List.replicate (maxEmojisMain + 1) "AAPL") 0 (Nat.zero_le _)
  rw [countP_replicate_self] at h
  rw [stockEmojiWorker_fst, h]
  omega

/-- Claim C1 (amended): for every worker, given any finite sequence of
symbols read from the stock channel, the final tally is the number of
occurrences matching its assigned ticker clipped at `maxEmojis + 1` — the
loop breaks only once the tally *exceeds* the cap, so the tally may reach
`maxEmojis + 1` —, and after it stops reading the worker sends exactly one
value (`true`) on the done channel. -/
theorem stockEmojiWorker_tally_and_done (ticker : String) (maxEmojis : Nat)
    (symsRead : List String) :
    (stockEmojiWorker ticker maxEmojis symsRead).1
      = min (symsRead.countP (fun s => s == ticker)) (maxEmojis + 1)
    ∧ (stockEmojiWorker ticker maxEmojis symsRead).2 = [true] := by
  constructor
  · rw [stockEmojiWorker_fst,
      stockEmojiWorkerCount_eq ticker maxEmojis symsRead 0 (Nat.zero_le _)]
    simp
  · rfl

/-- Claim C5: every value `stockSymbolSpammer` sends on the stock channel is
drawn from the fixed four-element set `{"AAPL", "GOOG", "FB", "AMZN"}`, and
every such value matches the assigned ticker of exactly one of the four
workers. -/
theorem spammer_sends_known_symbols (rolls : List (Fin 4)) :
    ∀ v ∈ stockSymbolSpammer rolls,
      v ∈ stockSymbols ∧ workerTickers.count v = 1 := by
  intro v hv
  simp only [stockSymbolSpammer, List.mem_map] at hv
  obtain ⟨r, _, rfl⟩ := hv
  fin_cases r <;> exact ⟨by decide, by decide⟩

/-- Witness for claim C5: a spammer that draws index `0` sends `"AAPL"`,
which is one of the four symbols and matches exactly one worker. -/
theorem spammer_sends_known_symbols_witness :
    "AAPL" ∈ stockSymbols ∧ workerTickers.count "AAPL" = 1 :=
  spammer_sends_known_symbols [0] "AAPL" (by decide)

/-- Closed form of the driver loop, for any count of already-finished
workers below the worker count: the loop returns `allWorkersDone` when
enough done messages precede the first ticker message, `timedOut` when a
ticker message arrives before that, and otherwise keeps waiting. -/
lemma driverLoop_char (workers : Nat) :
    ∀ (evs : List DriverEvent) (finished : Nat), finished < workers →
      driverLoop workers evs finished =
        if workers ≤ finished
            + (evs.takeWhile (fun e => e == DriverEvent.workerDone)).length
        then .allWorkersDone
        else if DriverEvent.tick ∈ evs then .timedOut
        else .stillWaiting := by
  intro evs
  induction evs with
  | nil =>
    intro f hf
    have h0 : ¬ workers ≤ f
        + (List.takeWhile (fun e => e == DriverEvent.workerDone) []).length := by
      simp
      omega
    rw [if_neg h0]
    have h1 : DriverEvent.tick ∉ ([] : List DriverEvent) := by simp
    rw [if_neg h1]
    rfl
  | cons e rest ih =>
    intro f hf
    cases e with
    | tick =>
      have htw : List.takeWhile (fun e => e == DriverEvent.workerDone)
          (DriverEvent.tick :: rest) = [] := by
        simp [List.takeWhile_cons]
      rw [htw]
      have h0 : ¬ workers ≤ f + ([] : List DriverEvent).length := by
        simp
        omega
      rw [if_neg h0]
      have h1 : DriverEvent.tick ∈ DriverEvent.tick :: rest :=
        List.mem_cons_self _ _
      rw [if_pos h1]
      rfl
    | workerDone =>
      have htw : List.takeWhile (fun e => e == DriverEvent.workerDone)
          (DriverEvent.workerDone :: rest)
          = DriverEvent.workerDone
            :: List.takeWhile (fun e => e == DriverEvent.workerDone) rest := by
        simp [List.takeWhile_cons]
      rw [htw]
      by_cases hw : f + 1 = workers
      · have hcond : (f + 1 == workers) = true := by simp [hw]
        have hL : workers ≤ f + (DriverEvent.workerDone
            :: List.takeWhile (fun e => e == DriverEvent.workerDone)
                 rest).length := by
          simp only [List.length_cons]
          omega
        rw [if_pos hL]
        simp [driverLoop, hcond]
      · have hcond : (f + 1 == workers) = false := by simp [hw]
        have hstep : driverLoop workers (DriverEvent.workerDone :: rest) f
            = driverLoop workers rest (f + 1) := by
          simp [driverLoop, hcond]
        rw [hstep, ih (f + 1) (by omega)]
        by_cases hc : workers ≤ f + 1
            + (List.takeWhile (fun e => e == DriverEvent.workerDone)
                 rest).length
        · have hc' : workers ≤ f + (DriverEvent.workerDone
              :: List.takeWhile (fun e => e == DriverEvent.workerDone)
                   rest).length := by
            simp only [List.length_cons]
            omega
          rw [if_pos hc, if_pos hc']
        · have hc' : ¬ workers ≤ f + (DriverEvent.workerDone
              :: List.takeWhile (fun e => e == DriverEvent.workerDone)
                   rest).length := by
            simp only [List.length_cons]
            omega
          rw [if_neg hc, if_neg hc']
          have hmem : (DriverEvent.tick ∈ DriverEvent.workerDone :: rest)
              ↔ DriverEvent.tick ∈ rest := by
            simp
          by_cases ht : DriverEvent.tick ∈ rest
          · rw [if_pos ht, if_pos (hmem.mpr ht)]
          · rw [if_neg ht, if_neg (fun h => ht (hmem.mp h))]

/-- Claim C2: the driver loop terminates exactly when one of two events
occurs, whichever comes first — a message on the timeout ticker channel, or
the fourth (`workersMain = 4`) completion message on the done channel; in
every state before either event the driver keeps waiting.  The events the
`select` services are `evs` in order; "the fourth done message comes first"
is: at least four done messages precede the first ticker message. -/
theorem driverLoop_termination (evs : List DriverEvent) :
    (driverLoop workersMain evs 0 = .timedOut ↔
        (evs.takeWhile (fun e => e == DriverEvent.workerDone)).length
          < workersMain
        ∧ DriverEvent.tick ∈ evs)
    ∧ (driverLoop workersMain evs 0 = .allWorkersDone ↔
        workersMain
          ≤ (evs.takeWhile (fun e => e == DriverEvent.workerDone)).length)
    ∧ (driverLoop workersMain evs 0 = .stillWaiting ↔
        (evs.takeWhile (fun e => e == DriverEvent.workerDone)).length
          < workersMain
        ∧ DriverEvent.tick ∉ evs) := by
  have h := driverLoop_char workersMain evs 0 (by simp [workersMain])
  rw [h]
  by_cases hL : workersMain ≤ 0
      + (evs.takeWhile (fun e => e == DriverEvent.workerDone)).length
  · rw [if_pos hL]
    refine ⟨?_, ?_, ?_⟩ <;> simp <;> omega
  · rw [if_neg hL]
    by_cases ht : DriverEvent.tick ∈ evs
    · rw [if_pos ht]
      refine ⟨?_, ?_, ?_⟩ <;> simp [ht] <;> omega
    · rw [if_neg ht]
      refine ⟨?_, ?_, ?_⟩ <;> simp [ht] <;> omega

/-- Claim C3: in the message-sending loop, for every message in the input
list: if the channel is full at the time of the send, the `default` branch
drops the message with a printed notice, the channel is unchanged and the
sender does not block; if the channel is not full, the message is enqueued
at the back and nothing is printed.  No other outcome is possible for any
message. -/
theorem sendLoop_message_outcomes (cap : Nat) (pairs : List (String × Nat))
    (ch : List String) :
    ∀ r ∈ sendRecords cap pairs ch,
      (r.pre.length < cap ∧ r.post = r.pre ++ [r.msg] ∧ r.note = none)
      ∨ (¬ r.pre.length < cap ∧ r.post = r.pre
          ∧ r.note = some (dropNotice r.msg)) := by
  induction pairs generalizing ch with
  | nil => simp [sendRecords]
  | cons p rest ih =>
    obtain ⟨message, consumed⟩ := p
    intro r hr
    simp only [sendRecords, List.mem_cons] at hr
    rcases hr with rfl | hr
    · by_cases hlen : (ch.drop consumed).length < cap
      · have hstep : trySend cap (ch.drop consumed) message
            = (ch.drop consumed ++ [message], none) := by
          unfold trySend
          rw [if_pos hlen]
        left
        exact ⟨hlen, by rw [hstep], by rw [hstep]⟩
      · have hstep : trySend cap (ch.drop consumed) message
            = (ch.drop consumed, some (dropNotice message)) := by
          unfold trySend
          rw [if_neg hlen]
        right
        exact ⟨hlen, by rw [hstep], by rw [hstep]⟩
    · exact ih _ r hr

/-- Witness for claim C3: sending `"foo"` on the empty 3-slot channel
enqueues it without a notice. -/
theorem sendLoop_message_outcomes_witness :
    (([] : List String).length < messageChanCap
      ∧ (["foo"] : List String) = [] ++ ["foo"] ∧ (none : Option String) = none)
    ∨ (¬ ([] : List String).length < messageChanCap
      ∧ (["foo"] : List String) = [] ∧ (none : Option String)
          = some (dropNotice "foo")) :=
  sendLoop_message_outcomes messageChanCap [("foo", 0)] []
    ⟨"foo", [], ["foo"], none⟩ (by decide)

/-- Claim C6: whenever establishing the placeholder database connection
fails — parsing the connection string (`sql.Open`) or obtaining a
connection (`db.Conn`) returns an error — the program logs a message and
terminates the process at that point, so none of the code after the
connection setup runs; and in every run the connection is never exercised
beyond the deferred `Close`. -/
theorem deferredMain_fatal_on_error (openErr connErr : Bool) :
    ((openErr = true ∨ connErr = true) →
       (∃ msg, (deferredMain openErr connErr).outcome
           = DbMainOutcome.fatalExit msg)
       ∧ (deferredMain openErr connErr).afterSetupRan = false
       ∧ (deferredMain openErr connErr).connOps = [])
    ∧ (deferredMain openErr connErr).connOps ⊆ ["Close"] := by
  cases openErr <;> cases connErr <;> simp [deferredMain]

/-- Witness for claim C6: with `sql.Open` failing the run ends in
`log.Fatal`, no later code runs and the connection is never used. -/
theorem deferredMain_fatal_on_error_witness :
    (∃ msg, (deferredMain true false).outcome = DbMainOutcome.fatalExit msg)
    ∧ (deferredMain true false).afterSetupRan = false
    ∧ (deferredMain true false).connOps = [] :=
  (deferredMain_fatal_on_error true false).1 (Or.inl rfl)

/-! ## Claims about the structs/interfaces lesson -/

/-- Claim C8: for every `SenderA` value and every sequence of calls to its
value-receiver `Send` method, the caller's struct is unchanged after every
call: `MessageCount` stays at its original value (`0` for a freshly created
sender, for any number of calls) and `FirstName` is unchanged, because
`Send` operates on a copy. -/
theorem senderA_caller_unchanged (s : SenderA) (messages : List String) :
    SenderA.sendMany s messages = s
    ∧ (SenderA.sendMany { FirstName := s.FirstName, MessageCount := 0 }
         messages).MessageCount = 0
    ∧ (SenderA.sendMany s messages).FirstName = s.FirstName := by
  refine ⟨sendManyA_id messages s, ?_, ?_⟩
  · rw [sendManyA_id]
  · rw [sendManyA_id]

/-- Claim C9 counterexample: at the 64-bit `int` boundary the increment
wraps — a sender whose `MessageCount` is `2^63 - 1` does *not* have
`MessageCount` incremented by exactly `1` by a `Send` call (it wraps to
`-2^63`), refuting the claim as stated, whose quantification over every
`SenderB` value includes this state. -/
theorem senderB_increment_wraps :
    ¬ ((SenderB.callSend { FirstName := "B", MessageCount := 2 ^ 63 - 1 }
          "message one").1.MessageCount = (2 ^ 63 - 1 : Int) + 1) := by
  decide

/-- Claim C9 (amended): each call to the pointer-receiver `SenderB.Send`
sets `MessageCount` of the original struct to the 64-bit wrap of its old
value plus `1` — equal to old value plus `1` except at the upper boundary
`2^63 - 1` — and leaves `FirstName` unchanged; after `n` calls starting
from a freshly created sender, `MessageCount` equals the 64-bit
two's-complement representative of `n`, which is `n` itself whenever
`n < 2^63`. -/
theorem senderB_send_increments (s : SenderB) (message : String)
    (name : String) (messages : List String) :
    (SenderB.callSend s message).1.MessageCount
      = int64Wrap (s.MessageCount + 1)
    ∧ (SenderB.callSend s message).1.FirstName = s.FirstName
    ∧ (-(2 ^ 63) ≤ s.MessageCount → s.MessageCount < 2 ^ 63 - 1 →
        (SenderB.callSend s message).1.MessageCount = s.MessageCount + 1)
    ∧ (SenderB.sendMany { FirstName := name, MessageCount := 0 }
         messages).MessageCount = int64Wrap (messages.length : Int)
    ∧ ((messages.length : Int) < 2 ^ 63 →
        (SenderB.sendMany { FirstName := name, MessageCount := 0 }
           messages).MessageCount = (messages.length : Int)) := by
  have hsm : (SenderB.sendMany { FirstName := name, MessageCount := 0 }
        messages).MessageCount = int64Wrap ((0 : Int) + messages.length) :=
    sendManyB_messageCount messages _ (by norm_num) (by norm_num)
  refine ⟨rfl, rfl, ?_, ?_, ?_⟩
  · intro h1 h2
    show int64Wrap (s.MessageCount + 1) = s.MessageCount + 1
    exact int64Wrap_eq_self _ (by omega) (by omega)
  · rw [hsm]
    congr 1
    omega
  · intro hlen
    rw [hsm,
      int64Wrap_eq_self ((0 : Int) + messages.length) (by omega) (by omega)]
    omega

/-- Witness for claim C9: a fresh sender has `MessageCount = 1` after one
call, in agreement with the unwrapped count below the boundary. -/
theorem senderB_send_increments_witness :
    (SenderB.callSend { FirstName := "B", MessageCount := 0 }
        "message one").1.MessageCount = (0 : Int) + 1
    ∧ (SenderB.sendMany { FirstName := "B", MessageCount := 0 }
         ["message one"]).MessageCount
        = ((["message one"] : List String).length : Int) := by
  have h := senderB_send_increments { FirstName := "B", MessageCount := 0 }
    "message one" "B" ["message one"]
  exact ⟨h.2.2.1 (by norm_num) (by norm_num), h.2.2.2.2 (by decide)⟩

/-- Claim C4 counterexample: on the freshly created sender `{FirstName :=
"A", MessageCount := 0}` and the message `"message one"`, the two revisions
of `SenderA.Send` print different text (`"Send 1 from A: message one"`
versus `"Send from A: message one"`), so the revisions are not behaviorally
equivalent as claimed. -/
theorem senderA_revisions_print_differently :
    (SenderA.callSend ⟨"A", 0⟩ "message one").2
      ≠ (SenderA.callSendAlt ⟨"A", 0⟩ "message one").2 := by
  decide

/-- Claim C4 (amended): the `SenderB.Send` methods of the two revisions are
behaviorally equivalent — for every sender state and message they produce
the same printed output and the same post-state; the `SenderA.Send`
methods of the two revisions leave the caller's struct equally unchanged,
but their printed output differs. -/
theorem senders_equivalence_amended (sa : SenderA) (sb : SenderB)
    (message : String) :
    SenderB.Send sb message = SenderB.SendAlt sb message
    ∧ (SenderA.callSend sa message).1 = (SenderA.callSendAlt sa message).1 :=
  ⟨rfl, rfl⟩

/-- A lookup of a key that is absent from the map yields the zero value of
`int` and a `false` flag. -/
lemma goMapLookup_absent (m : List (String × Int)) (key : String)
    (habs : key ∉ m.map Prod.fst) : goMapLookup m key = (0, false) := by
  have hfind : m.find? (fun kv => kv.1 == key) = none := by
    rw [List.find?_eq_none]
    intro kv hkv
    simp only [beq_iff_eq]
    intro heq
    exact habs (heq ▸ List.mem_map_of_mem Prod.fst hkv)
  simp [goMapLookup, hfind]

/-- A lookup of a present key (keys are unique in a Go map) yields the
stored value and a `true` flag. -/
lemma goMapLookup_present :
    ∀ (m : List (String × Int)) (key : String) (v : Int),
      (m.map Prod.fst).Nodup → (key, v) ∈ m →
      goMapLookup m key = (v, true) := by
  intro m
  induction m with
  | nil =>
    intro key v _ h
    cases h
  | cons kv rest ih =>
    intro key v hnd hmem
    obtain ⟨a, b⟩ := kv
    rw [List.map_cons, List.nodup_cons] at hnd
    rcases List.mem_cons.mp hmem with heq | htl
    · injection heq with h1 h2
      subst h1
      subst h2
      simp [goMapLookup, List.find?_cons]
    · have ha : a ≠ key := by
        intro h
        subst h
        exact hnd.1 (List.mem_map.mpr ⟨(a, v), htl, rfl⟩)
      have hcons : ((a, b) :: rest).find? (fun kv => kv.1 == key)
          = rest.find? (fun kv => kv.1 == key) := by
        rw [List.find?_cons_of_neg]
        simp [ha]
      have hrest := ih key v hnd.2 htl
      simp only [goMapLookup] at hrest ⊢
      rw [hcons]
      exact hrest

/-- Claim C7: a map lookup of a key that is absent from the map does not
fail: it returns the default zero value of the value type (`0` for `int`)
together with a `false` key-exists flag, and leaves the map unchanged; a
lookup of a present key returns the stored value with a `true` flag. -/
theorem goMapLookup_hit_and_miss (m : List (String × Int)) (key : String) :
    (key ∉ m.map Prod.fst → goMapLookup m key = (0, false))
    ∧ (∀ v : Int, (m.map Prod.fst).Nodup → (key, v) ∈ m →
        goMapLookup m key = (v, true))
    ∧ (goMapRead m key).2 = m :=
  ⟨goMapLookup_absent m key, fun v hnd hv => goMapLookup_present m key v hnd hv,
    rfl⟩

/-- Witness for claim C7, on the `nameToAge` map of the script: the absent
key `"Cindy"` yields `(0, false)` and the present key `"Bob"` yields
`(42, true)`; the map is unchanged by the read. -/
theorem goMapLookup_hit_and_miss_witness :
    goMapLookup nameToAge "Cindy" = (0, false)
    ∧ goMapLookup nameToAge "Bob" = (42, true)
    ∧ (goMapRead nameToAge "Bob").2 = nameToAge :=
  ⟨(goMapLookup_hit_and_miss nameToAge "Cindy").1 (by decide),
    (goMapLookup_hit_and_miss nameToAge "Bob").2.1 42 (by decide) (by decide),
    (goMapLookup_hit_and_miss nameToAge "Bob").2.2⟩

/-- Claim C10: `u.updateNameAndCopy(n)` returns a `user` whose `firstName`
equals `n` while leaving the caller's `u` unchanged (value-receiver copy
semantics); by contrast, `p.updateMyName(n)` sets the original `p`'s
`firstName` to `n` in place. -/
theorem receiver_update_semantics (u : user) (p : person) (n : String) :
    ((u.callUpdateNameAndCopy n).2).firstName = n
    ∧ (u.callUpdateNameAndCopy n).1 = u
    ∧ (person.callUpdateMyName p n).firstName = n
    ∧ person.callUpdateMyName p n = { p with firstName := n } :=
  ⟨rfl, rfl, rfl, rfl⟩

end GoFromPython
